import Mathlib

/-!
A shallow embedding of the `natnet-decode` crate: a version-aware binary
decoder for the NatNet motion-capture streaming protocol.

Modelling conventions:
- A byte source (`B: BufRead` in the source, consumed strictly forward) is a
  finite list of byte values (`List Nat`, each element < 256 on real inputs).
  Reads consume from the front and thread the remaining tail.
- Fallible decoding (`Result<T, ParseError>` in the source) is
  `Except PErr (T × ByteSrc)`: a decoded value plus the unconsumed tail, or
  an error. Running out of bytes mid-primitive is `PErr.NotEnoughBytes`
  (the source converts `io::ErrorKind::UnexpectedEof` to
  `ParseError::NotEnoughBytes`; any other I/O failure, impossible on a pure
  in-memory source, would be `PErr.IOError`).
- A Rust panic (arithmetic underflow, `unreachable!()`, out-of-range slice
  consume) is modelled by the distinguished outcome `PErr.Panicked`. It is
  not a `ParseError` value in the source: it marks control flow that never
  returns a `Result` at all.
- `f32`/`f64` fields are carried as their raw little-endian bit patterns
  (`Nat`); no floating-point arithmetic is performed by the decoder, so the
  bit pattern is a faithful, lossless representation of the decoded value.
- Rust `String`s decoded from the wire are carried as their UTF-8 byte
  lists (`List Nat`); `String::from_utf8`-style validation is modelled by
  `validUtf8`.
-/

/-- A sequential byte source: bytes not yet consumed, front first. -/
abbrev ByteSrc := List Nat

/-- Decode outcomes, mirroring `ParseError` in `src/lib.rs`, plus `Panicked`
which models a Rust panic (a path on which the source never returns a
`Result`): `UnknownError` (end-of-data marker nonzero), `UnknownResponse`
(unrecognized message id), `IOError` (non-EOF I/O failure), `StringError`
(C-string/UTF-8 conversion failure), `NotEnoughBytes` (source exhausted
mid-primitive). -/
inductive PErr where
  | UnknownError : PErr
  | UnknownResponse : Nat → PErr
  | IOError : PErr
  | StringError : PErr
  | NotEnoughBytes : PErr
  | Panicked : PErr
deriving DecidableEq, Repr

/-- Result of a decode step: the value and the unconsumed tail, or an error. -/
abbrev PResult (α : Type) := Except PErr (α × ByteSrc)

/-- Decidable equality for decode results, so concrete decodes can be
checked by `decide`. -/
instance exceptDecEq {e a : Type} [DecidableEq e] [DecidableEq a] :
    DecidableEq (Except e a) := fun x y =>
  match x, y with
  | .error u, .error v =>
    if h : u = v then .isTrue (by rw [h]) else .isFalse (by intro hc; cases hc; exact h rfl)
  | .ok u, .ok v =>
    if h : u = v then .isTrue (by rw [h]) else .isFalse (by intro hc; cases hc; exact h rfl)
  | .error _, .ok _ => .isFalse (by intro hc; cases hc)
  | .ok _, .error _ => .isFalse (by intro hc; cases hc)

/-- Sequencing of decode steps (the `try!` chaining in the source). -/
def pbind {α β : Type} (x : PResult α) (f : α → ByteSrc → PResult β) : PResult β :=
  match x with
  | .error e => .error e
  | .ok (a, s) => f a s

/-- Map over a successful decode, keeping the tail. -/
def pmap {α β : Type} (f : α → β) (x : PResult α) : PResult β :=
  match x with
  | .error e => .error e
  | .ok (a, s) => .ok (f a, s)

/-- Read exactly `n` raw bytes (byteorder reads use `read_exact` semantics:
fewer than `n` bytes left is `UnexpectedEof`, hence `NotEnoughBytes`, and
nothing is consumed). -/
def readBytes (n : Nat) (s : ByteSrc) : PResult (List Nat) :=
  if n ≤ s.length then .ok (s.take n, s.drop n) else .error .NotEnoughBytes

/-- Assemble a little-endian unsigned integer from a byte list. -/
def leNat : List Nat → Nat
  | [] => 0
  | b :: rest => b + 256 * leNat rest

/-- `read_u8`. -/
def readU8 (s : ByteSrc) : PResult Nat :=
  pmap leNat (readBytes 1 s)

/-- `read_u16::<LittleEndian>`. -/
def readU16 (s : ByteSrc) : PResult Nat :=
  pmap leNat (readBytes 2 s)

/-- `read_u32::<LittleEndian>`. -/
def readU32 (s : ByteSrc) : PResult Nat :=
  pmap leNat (readBytes 4 s)

/-- Reinterpret a `w`-bit unsigned value as two's-complement signed. -/
def toSigned (w : Nat) (v : Nat) : Int :=
  if v < 2 ^ (w - 1) then (v : Int) else (v : Int) - 2 ^ w

/-- `read_i32::<LittleEndian>`: four little-endian bytes, two's complement. -/
def readI32 (s : ByteSrc) : PResult Int :=
  pmap (fun bs => toSigned 32 (leNat bs)) (readBytes 4 s)

/-- `read_i16::<LittleEndian>` followed by the bit tests `params & 0x01`,
`params & 0x02`, `params & 0x04` used in the source: the tests depend only
on the raw two's-complement bit pattern, so we keep the unsigned 16-bit
pattern. -/
def readBits16 (s : ByteSrc) : PResult Nat :=
  pmap leNat (readBytes 2 s)

/-- `read_f32::<LittleEndian>`: the raw 32-bit pattern of the float. -/
def readF32 (s : ByteSrc) : PResult Nat :=
  pmap leNat (readBytes 4 s)

/-- `read_f64::<LittleEndian>`: the raw 64-bit pattern of the double. -/
def readF64 (s : ByteSrc) : PResult Nat :=
  pmap leNat (readBytes 8 s)

/-- `BufRead::read_until(0, buf)`: read up to and including the first nul
byte; at end of input without a nul it returns everything read so far
without error (std `read_until` semantics). Returns the bytes read
(delimiter included when found) and the unconsumed tail. -/
def readUntilNul : ByteSrc → List Nat × ByteSrc
  | [] => ([], [])
  | b :: rest =>
    if b = 0 then ([0], rest)
    else
      let (buf, r) := readUntilNul rest
      (b :: buf, r)

/-- Is `b` a UTF-8 continuation byte (`0x80..=0xBF`)? -/
def isCont (b : Nat) : Bool := 0x80 ≤ b && b ≤ 0xBF

/-- Standard UTF-8 validity of a byte list (the check performed by
`CString::into_string`, i.e. `String::from_utf8`): rejects overlong forms,
surrogates and values above `U+10FFFF`. -/
def validUtf8 : List Nat → Bool
  | [] => true
  | b :: rest =>
    if b ≤ 0x7F then validUtf8 rest
    else if 0xC2 ≤ b && b ≤ 0xDF then
      match rest with
      | c1 :: r => isCont c1 && validUtf8 r
      | [] => false
    else if b = 0xE0 then
      match rest with
      | c1 :: c2 :: r => (0xA0 ≤ c1 && c1 ≤ 0xBF) && isCont c2 && validUtf8 r
      | _ => false
    else if (0xE1 ≤ b && b ≤ 0xEC) || b = 0xEE || b = 0xEF then
      match rest with
      | c1 :: c2 :: r => isCont c1 && isCont c2 && validUtf8 r
      | _ => false
    else if b = 0xED then
      match rest with
      | c1 :: c2 :: r => (0x80 ≤ c1 && c1 ≤ 0x9F) && isCont c2 && validUtf8 r
      | _ => false
    else if b = 0xF0 then
      match rest with
      | c1 :: c2 :: c3 :: r =>
        (0x90 ≤ c1 && c1 ≤ 0xBF) && isCont c2 && isCont c3 && validUtf8 r
      | _ => false
    else if 0xF1 ≤ b && b ≤ 0xF3 then
      match rest with
      | c1 :: c2 :: c3 :: r => isCont c1 && isCont c2 && isCont c3 && validUtf8 r
      | _ => false
    else if b = 0xF4 then
      match rest with
      | c1 :: c2 :: c3 :: r =>
        (0x80 ≤ c1 && c1 ≤ 0x8F) && isCont c2 && isCont c3 && validUtf8 r
      | _ => false
    else false

/-- `read_cstring` in `src/lib.rs`: `read_until(0)`, then `pop()` the last
byte of the buffer (intended to strip the nul — when the source ran out
before a nul this silently drops a data byte instead), then
`CString::new` (fails on an interior nul) and `into_string` (fails on
invalid UTF-8). The decoded string is returned as its UTF-8 byte list,
excluding the nul. -/
def read_cstring (s : ByteSrc) : PResult (List Nat) :=
  let (buf, rest) := readUntilNul s
  let strBuf := buf.dropLast
  if (0 : Nat) ∈ strBuf then .error .StringError
  else if validUtf8 strBuf then .ok (strBuf, rest)
  else .error .StringError

/-- A protocol version (`semver::Version`): major.minor.patch plus optional
numeric build metadata. Pre-release tags are never produced by this crate
(caller thresholds are plain triples; `unpack_version` sets `pre: vec![]`),
so they are not modelled. -/
structure Ver where
  major : Nat
  minor : Nat
  patch : Nat
  build : List Nat
deriving DecidableEq, Repr

/-- Make a plain `major.minor.patch` version (no build metadata), as
`Version::parse("x.y.z")` does for the threshold constants. -/
def mkVer (a b c : Nat) : Ver := ⟨a, b, c, []⟩

/-- Semver precedence `a <= b` on versions without pre-release tags:
lexicographic on (major, minor, patch); build metadata is ignored. -/
def verLE (a b : Ver) : Bool :=
  if a.major ≠ b.major then a.major < b.major
  else if a.minor ≠ b.minor then a.minor < b.minor
  else a.patch ≤ b.patch

/-- The `2.6.0` threshold (packed optional flags, timestamp introduction). -/
def v260 : Ver := mkVer 2 6 0

/-- The `2.7.0` threshold (timestamp widened to a native double). -/
def v270 : Ver := mkVer 2 7 0

/-- The `2.9.0` threshold (force plates). -/
def v290 : Ver := mkVer 2 9 0

/-- `Marker` (`nalgebra::Point3<f32>` in `src/marker.rs`): a 3D point, each
coordinate carried as its raw `f32` bit pattern. -/
structure Marker where
  x : Nat
  y : Nat
  z : Nat
deriving DecidableEq, Repr

/-- `Quaternion<f32>` (`src/rigid_body.rs`), raw bit patterns. -/
structure Quat where
  x : Nat
  y : Nat
  z : Nat
  w : Nat
deriving DecidableEq, Repr

/-- `LabeledMarker` (`src/marker.rs`). -/
structure LabeledMarker where
  id : Int
  position : Marker
  size : Nat
  occluded : Option Bool
  point_cloud_solved : Option Bool
  model_solved : Option Bool
deriving DecidableEq, Repr

/-- `RigidBody` (`src/rigid_body.rs`). -/
structure RigidBody where
  id : Int
  position : Marker
  orientation : Quat
  markers : List Marker
  marker_ids : List Int
  marker_sizes : List Nat
  mean_error : Nat
  valid_track : Option Bool
deriving DecidableEq, Repr

/-- `Skeleton` (`src/skeleton.rs`). -/
structure Skeleton where
  id : Int
  bones : List RigidBody
deriving DecidableEq, Repr

/-- `ForcePlate` (`src/force_plate.rs`): samples are raw `f32` patterns. -/
structure ForcePlate where
  id : Int
  channels : List (List Nat)
deriving DecidableEq, Repr

/-- The decoded frame timestamp, recording from which wire width it came:
`fromF32 bits` is a 32-bit float read then promoted (`as f64`, exact);
`fromF64 bits` is a native 64-bit double. -/
inductive TsVal where
  | fromF32 : Nat → TsVal
  | fromF64 : Nat → TsVal
deriving DecidableEq, Repr

/-- `FrameOfData` (`src/frame.rs`). `marker_sets` models the
`BTreeMap<String, Vec<Marker>>` as an association list kept sorted by key
(byte-lexicographic, as Rust orders `String`s); inserting an existing key
replaces its value. -/
structure FrameOfData where
  frame_number : Int
  marker_sets : List (List Nat × List Marker)
  other_markers : List Marker
  rigid_bodies : List RigidBody
  skeletons : List Skeleton
  labeled_markers : List LabeledMarker
  force_plates : Option (List ForcePlate)
  latency : Nat
  timecode : Nat × Nat
  timestamp : Option TsVal
  is_recording : Option Bool
  tracked_models_changed : Option Bool
deriving DecidableEq, Repr

/-- Byte-lexicographic strict order on byte lists (Rust `String` ordering
on the UTF-8 bytes, used by the `BTreeMap`). -/
def bytesLt : List Nat → List Nat → Bool
  | [], [] => false
  | [], _ :: _ => true
  | _ :: _, [] => false
  | a :: as', b :: bs' => if a < b then true else if b < a then false else bytesLt as' bs'

/-- `BTreeMap::insert` on the sorted-association-list model: place the key
in order, replacing an equal key's value (last insertion wins). -/
def btreeInsert (k : List Nat) (v : List Marker) :
    List (List Nat × List Marker) → List (List Nat × List Marker)
  | [] => [(k, v)]
  | (k', v') :: rest =>
    if bytesLt k k' then (k, v) :: (k', v') :: rest
    else if k = k' then (k, v) :: rest
    else (k', v') :: btreeInsert k v rest

/-- `Marker::unpack`: three `f32` reads (x, y, z). -/
def Marker.unpack (_ : Ver) (s : ByteSrc) : PResult Marker :=
  pbind (readF32 s) fun x s1 =>
  pbind (readF32 s1) fun y s2 =>
  pbind (readF32 s2) fun z s3 =>
  .ok (⟨x, y, z⟩, s3)

/-- `Quaternion::unpack`: four `f32` reads (x, y, z, w). -/
def Quat.unpack (_ : Ver) (s : ByteSrc) : PResult Quat :=
  pbind (readF32 s) fun x s1 =>
  pbind (readF32 s1) fun y s2 =>
  pbind (readF32 s2) fun z s3 =>
  pbind (readF32 s3) fun w s4 =>
  .ok (⟨x, y, z, w⟩, s4)

/-- `LabeledMarker::unpack`: id, position, size, then — only for version
`>= 2.6.0` — one `i16` of packed flags (bit0 occluded, bit1
point-cloud-solved, bit2 model-solved). -/
def LabeledMarker.unpack (ver : Ver) (s : ByteSrc) : PResult LabeledMarker :=
  pbind (readI32 s) fun id s1 =>
  pbind (Marker.unpack ver s1) fun pos s2 =>
  pbind (readF32 s2) fun size s3 =>
  pbind
    (if verLE v260 ver then
      pmap (fun params =>
        (some (decide (0 < Nat.land params 1)),
         some (decide (0 < Nat.land params 2)),
         some (decide (0 < Nat.land params 4)))) (readBits16 s3)
    else .ok ((none, none, none), s3)) fun flags s4 =>
  .ok (⟨id, pos, size, flags.1, flags.2.1, flags.2.2⟩, s4)

/-- Decode exactly `n` consecutive values with `p`, threading the tail
(the `for _ in 0..num` loops in the source). -/
def unpackN {α : Type} (p : Ver → ByteSrc → PResult α) (ver : Ver) :
    Nat → ByteSrc → PResult (List α)
  | 0, s => .ok ([], s)
  | n + 1, s =>
    pbind (p ver s) fun a s1 =>
    pbind (unpackN p ver n s1) fun as' s2 =>
    .ok (a :: as', s2)

/-- The loop bound `for _ in 0..num` for an `i32` count: negative counts
iterate zero times. -/
def loopCount (num : Int) : Nat := num.toNat

/-- The `usize` value of `num as usize` for an `i32` count on a 64-bit
target (sign extension, two's complement). -/
def usizeCast (num : Int) : Nat := (num % (2 ^ 64)).toNat

/-- `unpack_vec` in `src/frame.rs`: read an `i32` count, then decode that
many elements. The source passes `num as usize` straight to
`Vec::with_capacity` with no bound check; that allocation request (not
observable in the decoded value unless it aborts) is modelled separately
by `unpack_vec_capacity`. -/
def unpack_vec {α : Type} (p : Ver → ByteSrc → PResult α) (ver : Ver) (s : ByteSrc) :
    PResult (List α) :=
  pbind (readI32 s) fun num s1 =>
  unpackN p ver (loopCount num) s1

/-- The argument `unpack_vec` passes to `Vec::with_capacity` before any
element is read: the declared `i32` count cast to `usize`, with no
validation against the remaining input. -/
def unpack_vec_capacity (s : ByteSrc) : Except PErr Nat :=
  match readI32 s with
  | .ok (num, _) => .ok (usizeCast num)
  | .error e => .error e

/-- `RigidBody::unpack`: id, position, orientation, marker count `n`, then
`n` markers, `n` ids, `n` sizes (three parallel runs, not interleaved),
mean error, and — only for `>= 2.6.0` — an `i16` whose bit0 is
valid-track. The three `Vec::with_capacity(num_markers as usize)` calls
are unvalidated as in `unpack_vec`. -/
def RigidBody.unpack (ver : Ver) (s : ByteSrc) : PResult RigidBody :=
  pbind (readI32 s) fun id s1 =>
  pbind (Marker.unpack ver s1) fun pos s2 =>
  pbind (Quat.unpack ver s2) fun orient s3 =>
  pbind (readI32 s3) fun num s4 =>
  pbind (unpackN Marker.unpack ver (loopCount num) s4) fun markers s5 =>
  pbind (unpackN (fun _ => readI32) ver (loopCount num) s5) fun ids s6 =>
  pbind (unpackN (fun _ => readF32) ver (loopCount num) s6) fun sizes s7 =>
  pbind (readF32 s7) fun err s8 =>
  pbind
    (if verLE v260 ver then
      pmap (fun params => some (decide (0 < Nat.land params 1))) (readBits16 s8)
    else .ok (none, s8)) fun track s9 =>
  .ok (⟨id, pos, orient, markers, ids, sizes, err, track⟩, s9)

/-- `Skeleton::unpack`: id, bone count, then that many rigid bodies. -/
def Skeleton.unpack (ver : Ver) (s : ByteSrc) : PResult Skeleton :=
  pbind (readI32 s) fun id s1 =>
  pbind (readI32 s1) fun num s2 =>
  pbind (unpackN RigidBody.unpack ver (loopCount num) s2) fun bodies s3 =>
  .ok (⟨id, bodies⟩, s3)

/-- `ForcePlate::unpack`: id, channel count, then per channel its own
sample count followed by that many `f32` samples (ragged). -/
def ForcePlate.unpack (ver : Ver) (s : ByteSrc) : PResult ForcePlate :=
  pbind (readI32 s) fun id s1 =>
  pbind (readI32 s1) fun numCh s2 =>
  pbind (unpackN (fun v t =>
    pbind (readI32 t) fun numFr t1 =>
    unpackN (fun _ => readF32) v (loopCount numFr) t1) ver (loopCount numCh) s2)
    fun chans s3 =>
  .ok (⟨id, chans⟩, s3)

/-- The marker-set loop in `FrameOfData::unpack` (`for _ in
0..num_marker_sets`): per set a nul-terminated name, a marker count, that
many markers, inserted into the `BTreeMap`. -/
def unpackMarkerSets (ver : Ver) :
    Nat → List (List Nat × List Marker) → ByteSrc →
    PResult (List (List Nat × List Marker))
  | 0, sets, s => .ok (sets, s)
  | n + 1, sets, s =>
    pbind (read_cstring s) fun name s1 =>
    pbind (readI32 s1) fun num s2 =>
    pbind (unpackN Marker.unpack ver (loopCount num) s2) fun markers s3 =>
    unpackMarkerSets ver n (btreeInsert name markers sets) s3

/-- Everything `FrameOfData::unpack` decodes before the end-of-data tag, in
source order: frame number; marker sets; other markers; rigid bodies;
skeletons; labeled markers; force plates only for `>= 2.9.0`; latency;
two timecode words; timestamp (`f64` for `>= 2.7.0`, `f32` promoted for
`>= 2.6.0`, absent below); packed is-recording / tracked-models-changed
flags only for `>= 2.6.0`. -/
def unpackFrameBody (ver : Ver) (s : ByteSrc) : PResult FrameOfData :=
  pbind (readI32 s) fun frame_num s1 =>
  pbind (readI32 s1) fun num_sets s2 =>
  pbind (unpackMarkerSets ver (loopCount num_sets) [] s2) fun sets s3 =>
  pbind (unpack_vec Marker.unpack ver s3) fun others s4 =>
  pbind (unpack_vec RigidBody.unpack ver s4) fun bodies s5 =>
  pbind (unpack_vec Skeleton.unpack ver s5) fun skels s6 =>
  pbind (unpack_vec LabeledMarker.unpack ver s6) fun labeled s7 =>
  pbind
    (if verLE v290 ver then pmap some (unpack_vec ForcePlate.unpack ver s7)
     else .ok (none, s7)) fun plates s8 =>
  pbind (readF32 s8) fun latency s9 =>
  pbind (readU32 s9) fun tc s10 =>
  pbind (readU32 s10) fun tcs s11 =>
  pbind
    (if verLE v270 ver then pmap (fun b => some (TsVal.fromF64 b)) (readF64 s11)
     else if verLE v260 ver then pmap (fun b => some (TsVal.fromF32 b)) (readF32 s11)
     else .ok (none, s11)) fun ts s12 =>
  pbind
    (if verLE v260 ver then
      pmap (fun params =>
        (some (decide (0 < Nat.land params 1)),
         some (decide (0 < Nat.land params 2)))) (readBits16 s12)
    else .ok ((none, none), s12)) fun flags s13 =>
  .ok (⟨frame_num, sets, others, bodies, skels, labeled, plates, latency,
        (tc, tcs), ts, flags.1, flags.2⟩, s13)

/-- `FrameOfData::unpack`: the body fields, then a 4-byte end-of-data tag
that must be `0`; any other tag is `ParseError::UnknownError` and no frame
is returned. -/
def FrameOfData.unpack (ver : Ver) (s : ByteSrc) : PResult FrameOfData :=
  pbind (unpackFrameBody ver s) fun f s1 =>
  pbind (readI32 s1) fun eod s2 =>
  if eod = 0 then .ok (f, s2) else .error .UnknownError

/-- A `semver::Version` as built by `unpack_version` in `src/sender.rs`:
four single bytes — major, minor, patch and a numeric build identifier. -/
def unpack_version (s : ByteSrc) : PResult Ver :=
  pbind (readU8 s) fun v1 s1 =>
  pbind (readU8 s1) fun v2 s2 =>
  pbind (readU8 s2) fun v3 s3 =>
  pbind (readU8 s3) fun v4 s4 =>
  .ok (⟨v1, v2, v3, [v4]⟩, s4)

/-- `Sender` (`src/sender.rs`): application name (UTF-8 bytes), application
version, NatNet version. -/
structure Sender where
  name : List Nat
  version : Ver
  natnet_version : Ver
deriving DecidableEq, Repr

/-- `BufRead::consume(amt)` on an in-memory slice source: drops `amt`
bytes; an `amt` beyond the remaining buffer indexes out of range and
panics (`&self[amt..]`). -/
def consume (amt : Nat) (s : ByteSrc) : Except PErr ByteSrc :=
  if amt ≤ s.length then .ok (s.drop amt) else .error .Panicked

/-- `Sender::unpack`: read the nul-terminated name, then
`consume(256 - name.len() - 1)` to skip the unused rest of the fixed
256-byte name slot, then the two version fields. The skip amount is
`usize` arithmetic: when the decoded name is 256 bytes or longer the
subtraction underflows and the program panics (debug profile; the
release-profile wraparound makes `consume` index out of range instead —
a panic either way, modelled as `Panicked`). -/
def Sender.unpack (_ : Ver) (s : ByteSrc) : PResult Sender :=
  pbind (read_cstring s) fun name s1 =>
  if name.length + 1 > 256 then .error .Panicked
  else
    match consume (256 - name.length - 1) s1 with
    | .error e => .error e
    | .ok s2 =>
      pbind (unpack_version s2) fun ver s3 =>
      pbind (unpack_version s3) fun nat s4 =>
      .ok (⟨name, ver, nat⟩, s4)

/-- `model::MarkerSet` descriptor (`src/model.rs`). -/
structure MarkerSetDesc where
  name : List Nat
  markers : List (List Nat)
deriving DecidableEq, Repr

/-- `model::RigidBody` descriptor (`src/model.rs`); offset coordinates are
raw `f32` patterns. -/
structure RigidBodyDesc where
  name : List Nat
  id : Int
  parent_id : Int
  offset : Marker
deriving DecidableEq, Repr

/-- `model::Skeleton` descriptor (`src/model.rs`). -/
structure SkeletonDesc where
  name : List Nat
  id : Int
  bones : List RigidBodyDesc
deriving DecidableEq, Repr

/-- `model::DataSet` (`src/model.rs`): the closed choice of descriptors. -/
inductive DataSet where
  | MarkerSet : MarkerSetDesc → DataSet
  | RigidBody : RigidBodyDesc → DataSet
  | Skeleton : SkeletonDesc → DataSet
deriving DecidableEq, Repr

/-- `model::MarkerSet::unpack`: name, marker-name count, that many
nul-terminated marker names. -/
def MarkerSetDesc.unpack (_ : Ver) (s : ByteSrc) : PResult MarkerSetDesc :=
  pbind (read_cstring s) fun name s1 =>
  pbind (readI32 s1) fun num s2 =>
  pbind (unpackN (fun _ => read_cstring) (mkVer 0 0 0) (loopCount num) s2)
    fun markers s3 =>
  .ok (⟨name, markers⟩, s3)

/-- `model::RigidBody::unpack`: name, id, parent id, offset (three
`f32`). -/
def RigidBodyDesc.unpack (_ : Ver) (s : ByteSrc) : PResult RigidBodyDesc :=
  pbind (read_cstring s) fun name s1 =>
  pbind (readI32 s1) fun id s2 =>
  pbind (readI32 s2) fun p_id s3 =>
  pbind (readF32 s3) fun x s4 =>
  pbind (readF32 s4) fun y s5 =>
  pbind (readF32 s5) fun z s6 =>
  .ok (⟨name, id, p_id, ⟨x, y, z⟩⟩, s6)

/-- `model::Skeleton::unpack`: name, id, bone count, that many rigid-body
descriptors. -/
def SkeletonDesc.unpack (ver : Ver) (s : ByteSrc) : PResult SkeletonDesc :=
  pbind (read_cstring s) fun name s1 =>
  pbind (readI32 s1) fun id s2 =>
  pbind (readI32 s2) fun num s3 =>
  pbind (unpackN RigidBodyDesc.unpack ver (loopCount num) s3) fun bodies s4 =>
  .ok (⟨name, id, bodies⟩, s4)

/-- `model::DataSet::unpack`: a leading `i32` discriminant selects
MarkerSet (0), RigidBody (1) or Skeleton (2); every other value reaches
`unreachable!()` — a panic, not a returned error (modelled as
`Panicked`). -/
def DataSet.unpack (ver : Ver) (s : ByteSrc) : PResult DataSet :=
  pbind (readI32 s) fun d_type s1 =>
  if d_type = 0 then pmap DataSet.MarkerSet (MarkerSetDesc.unpack ver s1)
  else if d_type = 1 then pmap DataSet.RigidBody (RigidBodyDesc.unpack ver s1)
  else if d_type = 2 then pmap DataSet.Skeleton (SkeletonDesc.unpack ver s1)
  else .error .Panicked

/-- `NatNetResponse` (`src/messages.rs`): the tagged result of a decode. -/
inductive NatNetResponse where
  | Ping : Sender → NatNetResponse
  | Response : Int → NatNetResponse
  | ResponseString : List Nat → NatNetResponse
  | ModelDef : List DataSet → NatNetResponse
  | FrameOfData : FrameOfData → NatNetResponse
  | MessageString : List Nat → NatNetResponse
  | UnrecognizedRequest : NatNetResponse
deriving DecidableEq, Repr

/-- `NatNetMsgType` codes (`src/lib.rs`): Ping=0, PingResponse=1,
Request=2, Response=3, RequestModelDef=4, ModelDef=5,
RequestFrameOfData=6, FrameOfData=7, MessageString=8,
UnrecognizedRequest=100. -/
def msgPing : Nat := 0

/-- `NatNetMsgType::PingResponse as u16`. -/
def msgPingResponse : Nat := 1

/-- `NatNetMsgType::Response as u16`. -/
def msgResponse : Nat := 3

/-- `NatNetMsgType::RequestModelDef as u16`. -/
def msgRequestModelDef : Nat := 4

/-- `NatNetMsgType::ModelDef as u16`. -/
def msgModelDef : Nat := 5

/-- `NatNetMsgType::RequestFrameOfData as u16`. -/
def msgRequestFrameOfData : Nat := 6

/-- `NatNetMsgType::FrameOfData as u16`. -/
def msgFrameOfData : Nat := 7

/-- `NatNetMsgType::MessageString as u16`. -/
def msgMessageString : Nat := 8

/-- `NatNetMsgType::UnrecognizedRequest as u16`. -/
def msgUnrecognizedRequest : Nat := 100

/-- `NatNet::unpack_rest` (`src/lib.rs`): dispatch on the envelope's
message id, guards in source order. A `Response` (3) body is decoded as
an `i32` exactly when the declared length is 4, as a nul-terminated
string for every other declared length. The `ModelDef` list uses the
declared `i32` count with an unvalidated
`Vec::with_capacity(num_models as usize)`, like `unpack_vec`. -/
def unpack_rest (msg_id num_bytes : Nat) (ver : Ver) (s : ByteSrc) :
    PResult NatNetResponse :=
  if msg_id = msgFrameOfData then
    pmap NatNetResponse.FrameOfData (FrameOfData.unpack ver s)
  else if msg_id = msgModelDef then
    pbind (readI32 s) fun num_models s1 =>
    pmap NatNetResponse.ModelDef (unpackN DataSet.unpack ver (loopCount num_models) s1)
  else if msg_id = msgPingResponse then
    pmap NatNetResponse.Ping (Sender.unpack ver s)
  else if msg_id = msgMessageString then
    pmap NatNetResponse.MessageString (read_cstring s)
  else if msg_id = msgResponse ∧ num_bytes = 4 then
    pmap NatNetResponse.Response (readI32 s)
  else if msg_id = msgResponse then
    pmap NatNetResponse.ResponseString (read_cstring s)
  else if msg_id = msgUnrecognizedRequest then
    .ok (NatNetResponse.UnrecognizedRequest, s)
  else .error (.UnknownResponse msg_id)

/-- `NatNet::unpack_with`: read the 16-bit message id and 16-bit declared
body length, then dispatch. -/
def unpack_with (ver : Ver) (s : ByteSrc) : PResult NatNetResponse :=
  pbind (readU16 s) fun msg_id s1 =>
  pbind (readU16 s1) fun num_bytes s2 =>
  unpack_rest msg_id num_bytes ver s2

/-- `NatNet::unpack_type_with`: read the envelope; if either 16-bit read
fails (for any reason) or the message id differs from the wanted type,
return `none`; on a type match return `some` of the body dispatch
result. -/
def unpack_type_with (t : Nat) (ver : Ver) (s : ByteSrc) :
    Option (PResult NatNetResponse) :=
  match readU16 s with
  | .error _ => none
  | .ok (msg_id, s1) =>
    match readU16 s1 with
    | .error _ => none
    | .ok (num_bytes, s2) =>
      if msg_id = t then some (unpack_rest msg_id num_bytes ver s2) else none

/-- `NatNetRequest` (`src/messages.rs`); the Ping name is the interior of a
`CString` — nul-free bytes, the terminating nul is appended on encode. -/
inductive NatNetRequest where
  | Ping : List Nat → NatNetRequest
  | ModelDefinitions : NatNetRequest
  | FrameOfData : NatNetRequest
deriving DecidableEq, Repr

/-- Two little-endian bytes of a 16-bit value (`write_u16::<LittleEndian>`;
values are in range at every call site). -/
def u16le (n : Nat) : List Nat := [n % 256, n / 256 % 256]

/-- The `Into<Vec<u8>>` encoding of a request (`src/messages.rs`):
ModelDefinitions and FrameOfData are their type code plus a zero length;
Ping is type code 0, then — writing `str_data` for the name with its nul —
if `str_data` is longer than 65535 bytes, a declared length of 65535
followed by the first 65534 bytes of `str_data` and a forced trailing nul,
otherwise the declared length `str_data.len()` followed by `str_data`. -/
def natnetRequestEncode : NatNetRequest → List Nat
  | .ModelDefinitions => u16le msgRequestModelDef ++ u16le 0
  | .FrameOfData => u16le msgRequestFrameOfData ++ u16le 0
  | .Ping name =>
    let str_data := name ++ [0]
    if str_data.length > 65535 then
      u16le msgPing ++ u16le 65535 ++ str_data.take 65534 ++ [0]
    else
      u16le msgPing ++ u16le str_data.length ++ str_data

/-- Invert a successful `pbind`: the first step succeeded and the
continuation succeeded on its value and tail. -/
theorem pbind_ok {α β : Type} {x : PResult α} {f : α → ByteSrc → PResult β}
    {b : β × ByteSrc} (h : pbind x f = .ok b) :
    ∃ a s, x = .ok (a, s) ∧ f a s = .ok b := by
  cases x with
  | error e => simp [pbind] at h
  | ok p => exact ⟨p.1, p.2, rfl, h⟩

/-- Invert a successful `pmap`. -/
theorem pmap_ok {α β : Type} {f : α → β} {x : PResult α} {b : β} {s' : ByteSrc}
    (h : pmap f x = .ok (b, s')) :
    ∃ a, x = .ok (a, s') ∧ b = f a := by
  cases x with
  | error e => simp [pmap] at h
  | ok p =>
    simp only [pmap, Except.ok.injEq, Prod.mk.injEq] at h
    exact ⟨p.1, by simp [← h.2], h.1.symm⟩

/-- A failing first step makes the whole `pbind` fail with the same
error. -/
theorem pbind_error {α β : Type} {f : α → ByteSrc → PResult β} {e : PErr} :
    pbind (α := α) (.error e) f = .error e := rfl

/-- Every element of a successfully decoded `unpackN` run was produced by
a successful run of the element decoder, so it satisfies any property all
such outputs satisfy. -/
theorem unpackN_mem {α : Type} {p : Ver → ByteSrc → PResult α} {P : α → Prop}
    (ver : Ver) (hp : ∀ t a t', p ver t = .ok (a, t') → P a) :
    ∀ (n : Nat) (s : ByteSrc) (l : List α) (s' : ByteSrc),
      unpackN p ver n s = .ok (l, s') → ∀ a ∈ l, P a := by
  intro n
  induction n with
  | zero =>
    intro s l s' h a ha
    simp only [unpackN, Except.ok.injEq, Prod.mk.injEq] at h
    rw [← h.1] at ha
    simp at ha
  | succ m ih =>
    intro s l s' h a ha
    obtain ⟨x, s1, hx, h1⟩ := pbind_ok h
    obtain ⟨xs, s2, hxs, h2⟩ := pbind_ok h1
    simp only [Except.ok.injEq, Prod.mk.injEq] at h2
    rw [← h2.1] at ha
    rcases List.mem_cons.mp ha with rfl | hmem
    · exact hp s a s1 hx
    · exact ih s1 xs s2 hxs a hmem

/-- Lift `unpackN_mem` through the count prefix of `unpack_vec`. -/
theorem unpack_vec_mem {α : Type} {p : Ver → ByteSrc → PResult α} {P : α → Prop}
    {ver : Ver} (hp : ∀ t a t', p ver t = .ok (a, t') → P a)
    {s : ByteSrc} {l : List α} {s' : ByteSrc}
    (h : unpack_vec p ver s = .ok (l, s')) : ∀ a ∈ l, P a := by
  obtain ⟨num, s1, _, h1⟩ := pbind_ok h
  exact unpackN_mem ver hp (loopCount num) s1 l s' h1

/-- Flag presence in a decoded `LabeledMarker` follows the 2.6.0 gate. -/
theorem labeledMarker_gating {ver : Ver} {s : ByteSrc} {lm : LabeledMarker}
    {s' : ByteSrc} (h : LabeledMarker.unpack ver s = .ok (lm, s')) :
    (lm.occluded.isSome ↔ verLE v260 ver = true) ∧
    (lm.point_cloud_solved.isSome ↔ verLE v260 ver = true) ∧
    (lm.model_solved.isSome ↔ verLE v260 ver = true) := by
  obtain ⟨id, s1, _, h1⟩ := pbind_ok h
  obtain ⟨pos, s2, _, h2⟩ := pbind_ok h1
  obtain ⟨size, s3, _, h3⟩ := pbind_ok h2
  obtain ⟨flags, s4, hf, h4⟩ := pbind_ok h3
  simp only [Except.ok.injEq, Prod.mk.injEq] at h4
  rw [← h4.1]
  by_cases hv : verLE v260 ver = true
  · rw [if_pos hv] at hf
    obtain ⟨params, _, hfl⟩ := pmap_ok hf
    simp [hfl, hv]
  · rw [if_neg hv] at hf
    simp only [Except.ok.injEq, Prod.mk.injEq] at hf
    simp [← hf.1, hv]

/-- Valid-track presence in a decoded `RigidBody` follows the 2.6.0
gate. -/
theorem rigidBody_gating {ver : Ver} {s : ByteSrc} {rb : RigidBody}
    {s' : ByteSrc} (h : RigidBody.unpack ver s = .ok (rb, s')) :
    rb.valid_track.isSome ↔ verLE v260 ver = true := by
  obtain ⟨id, s1, _, h1⟩ := pbind_ok h
  obtain ⟨pos, s2, _, h2⟩ := pbind_ok h1
  obtain ⟨orient, s3, _, h3⟩ := pbind_ok h2
  obtain ⟨num, s4, _, h4⟩ := pbind_ok h3
  obtain ⟨markers, s5, _, h5⟩ := pbind_ok h4
  obtain ⟨ids, s6, _, h6⟩ := pbind_ok h5
  obtain ⟨sizes, s7, _, h7⟩ := pbind_ok h6
  obtain ⟨err, s8, _, h8⟩ := pbind_ok h7
  obtain ⟨track, s9, ht, h9⟩ := pbind_ok h8
  simp only [Except.ok.injEq, Prod.mk.injEq] at h9
  rw [← h9.1]
  by_cases hv : verLE v260 ver = true
  · rw [if_pos hv] at ht
    obtain ⟨params, _, htr⟩ := pmap_ok ht
    simp [htr, hv]
  · rw [if_neg hv] at ht
    simp only [Except.ok.injEq, Prod.mk.injEq] at ht
    simp [← ht.1, hv]

/-- Every bone of a decoded `Skeleton` carries the 2.6.0-gated
valid-track flag per the gate. -/
theorem skeleton_gating {ver : Ver} {s : ByteSrc} {sk : Skeleton}
    {s' : ByteSrc} (h : Skeleton.unpack ver s = .ok (sk, s')) :
    ∀ rb ∈ sk.bones, rb.valid_track.isSome ↔ verLE v260 ver = true := by
  obtain ⟨id, s1, _, h1⟩ := pbind_ok h
  obtain ⟨num, s2, _, h2⟩ := pbind_ok h1
  obtain ⟨bodies, s3, hb, h3⟩ := pbind_ok h2
  simp only [Except.ok.injEq, Prod.mk.injEq] at h3
  rw [← h3.1]
  exact unpackN_mem (p := RigidBody.unpack)
    (P := fun rb => rb.valid_track.isSome = true ↔ verLE v260 ver = true)
    ver (fun t a t' hh => rigidBody_gating hh) (loopCount num) s2 bodies s3 hb

/-- Arithmetic characterization of the threshold comparison
`Version::parse("a.b.c") <= ver`. -/
theorem verLE_iff (a b c : Nat) (ver : Ver) :
    verLE (mkVer a b c) ver = true ↔
      (a < ver.major ∨ (a = ver.major ∧
        (b < ver.minor ∨ (b = ver.minor ∧ c ≤ ver.patch)))) := by
  simp only [verLE, mkVer]
  split_ifs <;> simp_all

/-- The thresholds are ordered: a version at or above 2.7.0 is at or above
2.6.0. -/
theorem verLE_260_of_270 {ver : Ver} (h : verLE v270 ver = true) :
    verLE v260 ver = true := by
  rw [v270, verLE_iff] at h
  rw [v260, verLE_iff]
  omega

/-- The thresholds are ordered: a version at or above 2.9.0 is at or above
2.6.0. -/
theorem verLE_260_of_290 {ver : Ver} (h : verLE v290 ver = true) :
    verLE v260 ver = true := by
  rw [v290, verLE_iff] at h
  rw [v260, verLE_iff]
  omega

/-- Claim C1: for every successfully decoded frame, the version-gated optional
fields follow the threshold table exactly: the packed booleans
(is-recording and tracked-models-changed in the frame; occluded,
point-cloud-solved, model-solved in every labeled marker; valid-track in
every rigid body, including skeleton bones) are present if and only if the
caller-supplied version is at least 2.6.0; force plates are present if and
only if it is at least 2.9.0; the timestamp is absent below 2.6.0, comes
from a 32-bit float for 2.6.x (below 2.7.0), and from a native 64-bit
double at 2.7.0 and above. -/
theorem frame_version_gating {ver : Ver} {s : ByteSrc} {f : FrameOfData}
    {s' : ByteSrc} (h : FrameOfData.unpack ver s = .ok (f, s')) :
    (f.is_recording.isSome ↔ verLE v260 ver = true) ∧
    (f.tracked_models_changed.isSome ↔ verLE v260 ver = true) ∧
    (f.force_plates.isSome ↔ verLE v290 ver = true) ∧
    (f.timestamp = none ↔ verLE v260 ver = false) ∧
    (verLE v270 ver = true → ∃ b, f.timestamp = some (TsVal.fromF64 b)) ∧
    (verLE v260 ver = true → verLE v270 ver = false →
      ∃ b, f.timestamp = some (TsVal.fromF32 b)) ∧
    (∀ lm ∈ f.labeled_markers,
      (lm.occluded.isSome ↔ verLE v260 ver = true) ∧
      (lm.point_cloud_solved.isSome ↔ verLE v260 ver = true) ∧
      (lm.model_solved.isSome ↔ verLE v260 ver = true)) ∧
    (∀ rb ∈ f.rigid_bodies, rb.valid_track.isSome ↔ verLE v260 ver = true) ∧
    (∀ sk ∈ f.skeletons, ∀ rb ∈ sk.bones,
      rb.valid_track.isSome ↔ verLE v260 ver = true) := by
  obtain ⟨f0, sb, hbody, hrest⟩ := pbind_ok h
  obtain ⟨eod, s2, heod, hif⟩ := pbind_ok hrest
  have hf0 : f0 = f := by
    by_cases hz : eod = 0
    · rw [if_pos hz] at hif
      simp only [Except.ok.injEq, Prod.mk.injEq] at hif
      exact hif.1
    · rw [if_neg hz] at hif
      simp at hif
  subst hf0
  clear h hrest hif heod
  obtain ⟨frame_num, t1, _, h1⟩ := pbind_ok hbody
  obtain ⟨num_sets, t2, _, h2⟩ := pbind_ok h1
  obtain ⟨sets, t3, _, h3⟩ := pbind_ok h2
  obtain ⟨others, t4, _, h4⟩ := pbind_ok h3
  obtain ⟨bodies, t5, hbodies, h5⟩ := pbind_ok h4
  obtain ⟨skels, t6, hskels, h6⟩ := pbind_ok h5
  obtain ⟨labeled, t7, hlab, h7⟩ := pbind_ok h6
  obtain ⟨plates, t8, hpl, h8⟩ := pbind_ok h7
  obtain ⟨latency, t9, _, h9⟩ := pbind_ok h8
  obtain ⟨tc, t10, _, h10⟩ := pbind_ok h9
  obtain ⟨tcs, t11, _, h11⟩ := pbind_ok h10
  obtain ⟨ts, t12, hts, h12⟩ := pbind_ok h11
  obtain ⟨flags, t13, hfl, h13⟩ := pbind_ok h12
  simp only [Except.ok.injEq, Prod.mk.injEq] at h13
  obtain ⟨hfeq, -⟩ := h13
  subst hfeq
  refine ⟨?_, ?_, ?_, ?_, ?_, ?_, ?_, ?_, ?_⟩
  · by_cases hv : verLE v260 ver = true
    · rw [if_pos hv] at hfl
      obtain ⟨params, -, hfl2⟩ := pmap_ok hfl
      simp [hfl2, hv]
    · rw [if_neg hv] at hfl
      simp only [Except.ok.injEq, Prod.mk.injEq] at hfl
      simp [← hfl.1, hv]
  · by_cases hv : verLE v260 ver = true
    · rw [if_pos hv] at hfl
      obtain ⟨params, -, hfl2⟩ := pmap_ok hfl
      simp [hfl2, hv]
    · rw [if_neg hv] at hfl
      simp only [Except.ok.injEq, Prod.mk.injEq] at hfl
      simp [← hfl.1, hv]
  · by_cases hv : verLE v290 ver = true
    · rw [if_pos hv] at hpl
      obtain ⟨ps, -, hpl2⟩ := pmap_ok hpl
      simp [hpl2, hv]
    · rw [if_neg hv] at hpl
      simp only [Except.ok.injEq, Prod.mk.injEq] at hpl
      simp [← hpl.1, hv]
  · by_cases h27 : verLE v270 ver = true
    · rw [if_pos h27] at hts
      obtain ⟨b, -, hts2⟩ := pmap_ok hts
      simp [hts2, verLE_260_of_270 h27]
    · rw [if_neg h27] at hts
      by_cases h26 : verLE v260 ver = true
      · rw [if_pos h26] at hts
        obtain ⟨b, -, hts2⟩ := pmap_ok hts
        simp [hts2, h26]
      · rw [if_neg h26] at hts
        simp only [Except.ok.injEq, Prod.mk.injEq] at hts
        simp [← hts.1]
        simp at h26
        exact h26
  · intro h27
    rw [if_pos h27] at hts
    obtain ⟨b, -, hts2⟩ := pmap_ok hts
    exact ⟨b, by simp [hts2]⟩
  · intro h26 h27
    rw [if_neg (by simp [h27]), if_pos h26] at hts
    obtain ⟨b, -, hts2⟩ := pmap_ok hts
    exact ⟨b, by simp [hts2]⟩
  · exact unpack_vec_mem (p := LabeledMarker.unpack)
      (P := fun lm =>
        (lm.occluded.isSome = true ↔ verLE v260 ver = true) ∧
        (lm.point_cloud_solved.isSome = true ↔ verLE v260 ver = true) ∧
        (lm.model_solved.isSome = true ↔ verLE v260 ver = true))
      (fun t a t' hh => labeledMarker_gating hh) hlab
  · exact unpack_vec_mem (p := RigidBody.unpack)
      (P := fun rb => rb.valid_track.isSome = true ↔ verLE v260 ver = true)
      (fun t a t' hh => rigidBody_gating hh) hbodies
  · exact unpack_vec_mem (p := Skeleton.unpack)
      (P := fun sk => ∀ rb ∈ sk.bones,
        rb.valid_track.isSome = true ↔ verLE v260 ver = true)
      (fun t a t' hh => skeleton_gating hh) hskels

/-- A 50-byte all-zero 2.7.0 frame: zero counts everywhere, zero latency
and timecode, an 8-byte zero timestamp, zero flag word, zero end tag. -/
def zeroFrame270 : FrameOfData :=
  ⟨0, [], [], [], [], [], none, 0, (0, 0), some (TsVal.fromF64 0),
   some false, some false⟩

/-- Witness for C1: the gating conclusions hold at version 2.7.0 on a
concrete all-zero 50-byte frame. -/
theorem frame_version_gating_witness :
    (zeroFrame270.is_recording.isSome ↔ verLE v260 v270 = true) ∧
    (zeroFrame270.force_plates.isSome ↔ verLE v290 v270 = true) ∧
    (verLE v270 v270 = true → ∃ b, zeroFrame270.timestamp = some (TsVal.fromF64 b)) := by
  have h : FrameOfData.unpack v270 (List.replicate 50 0) = .ok (zeroFrame270, []) := by
    decide
  have hg := frame_version_gating h
  exact ⟨hg.1, hg.2.2.1, hg.2.2.2.2.1⟩

/-- Claim C3: for every version and every byte sequence whose frame body decodes
up to the terminal 4-byte end-of-data marker, `FrameOfData::unpack`
succeeds (returning exactly the decoded frame) if and only if that marker
is zero; any nonzero marker yields `ParseError::UnknownError` and no
frame. -/
theorem frame_eod_marker {ver : Ver} {s : ByteSrc} {f : FrameOfData}
    {s1 s2 : ByteSrc} {eod : Int}
    (hbody : unpackFrameBody ver s = .ok (f, s1))
    (heod : readI32 s1 = .ok (eod, s2)) :
    (eod = 0 → FrameOfData.unpack ver s = .ok (f, s2)) ∧
    (eod ≠ 0 → FrameOfData.unpack ver s = .error .UnknownError) := by
  constructor
  · intro hz
    simp [FrameOfData.unpack, pbind, hbody, heod, hz]
  · intro hnz
    simp [FrameOfData.unpack, pbind, hbody, heod, hnz]

/-- Witness for C3: a 36-byte all-zero 2.5.0 frame body followed by the
nonzero marker 1 fails with `UnknownError`; the same body followed by the
zero marker succeeds. -/
theorem frame_eod_marker_witness :
    FrameOfData.unpack (mkVer 2 5 0) (List.replicate 36 0 ++ [1, 0, 0, 0]) =
      .error .UnknownError := by
  have hbody : unpackFrameBody (mkVer 2 5 0) (List.replicate 36 0 ++ [1, 0, 0, 0]) =
      .ok (⟨0, [], [], [], [], [], none, 0, (0, 0), none, none, none⟩, [1, 0, 0, 0]) := by
    decide
  have heod : readI32 [1, 0, 0, 0] = .ok ((1 : Int), []) := by decide
  exact (frame_eod_marker hbody heod).2 (by decide)

/-- Claim C2: the fixed-width primitive readers report exhaustion as
`NotEnoughBytes`, but `read_cstring` does not: on a source that runs out
before any nul terminator it silently returns a fabricated string — the
bytes read with the final byte dropped by the unconditional `pop()` —
instead of a truncation failure. Concretely, the two-byte nul-less source
`[0x61, 0x62]` ("ab") decodes to the one-byte string "a". -/
theorem read_cstring_truncation_fabricates :
    read_cstring [97, 98] = .ok ([97], []) ∧
    read_cstring [97, 98] ≠ .error .NotEnoughBytes ∧
    read_cstring [] = .ok ([], []) ∧
    readU16 [97] = .error .NotEnoughBytes ∧
    readI32 [97, 98, 99] = .error .NotEnoughBytes := by
  refine ⟨by decide, by decide, by decide, by decide, by decide⟩

/-- Claim C4: for a `Response` (type 3) envelope, a declared body length of
exactly 4 selects the `i32` integer-response decode and every other
declared length selects the nul-terminated text-response decode; in
particular the 4-byte body encoding 1 yields `Response(1)` and a body
"ok\x00" under any other declared length yields `ResponseString("ok")`. -/
theorem response_length_dispatch (ver : Ver) (n : Nat) (s : ByteSrc)
    (hn : n ≠ 4) :
    unpack_rest msgResponse 4 ver s = pmap NatNetResponse.Response (readI32 s) ∧
    unpack_rest msgResponse n ver s =
      pmap NatNetResponse.ResponseString (read_cstring s) ∧
    unpack_rest msgResponse 4 ver [1, 0, 0, 0] =
      .ok (NatNetResponse.Response 1, []) ∧
    unpack_rest msgResponse n ver [111, 107, 0] =
      .ok (NatNetResponse.ResponseString [111, 107], []) := by
  have h4 : ∀ t : ByteSrc, unpack_rest msgResponse 4 ver t =
      pmap NatNetResponse.Response (readI32 t) := by
    intro t
    simp [unpack_rest, msgResponse, msgFrameOfData, msgModelDef,
      msgPingResponse, msgMessageString]
  have hstr : ∀ t : ByteSrc, unpack_rest msgResponse n ver t =
      pmap NatNetResponse.ResponseString (read_cstring t) := by
    intro t
    simp [unpack_rest, msgResponse, msgFrameOfData, msgModelDef,
      msgPingResponse, msgMessageString, hn]
  refine ⟨h4 s, hstr s, ?_, ?_⟩
  · rw [h4 [1, 0, 0, 0]]
    decide
  · rw [hstr [111, 107, 0]]
    decide

/-- Witness for C4: the dispatch equalities at version 2.5.0 and declared
length 7. -/
theorem response_length_dispatch_witness :
    unpack_rest msgResponse 4 (mkVer 2 5 0) [1, 0, 0, 0] =
      .ok (NatNetResponse.Response 1, []) ∧
    unpack_rest msgResponse 7 (mkVer 2 5 0) [111, 107, 0] =
      .ok (NatNetResponse.ResponseString [111, 107], []) := by
  have h := response_length_dispatch (mkVer 2 5 0) 7 [1, 0, 0, 0] (by decide)
  exact ⟨h.2.2.1, h.2.2.2⟩

/-- Claim C5: the filtering variant `unpack_type_with` returns `none` whenever
either 16-bit envelope read fails (for any failure value) or the read
message id differs from the wanted type; when the id matches the wanted
type it returns `some` of exactly the body dispatch result, propagating
every body failure unchanged. -/
theorem filter_dispatch (t : Nat) (ver : Ver) (s : ByteSrc) :
    (∀ e, readU16 s = .error e → unpack_type_with t ver s = none) ∧
    (∀ v s1 e, readU16 s = .ok (v, s1) → readU16 s1 = .error e →
      unpack_type_with t ver s = none) ∧
    (∀ v s1 n s2, readU16 s = .ok (v, s1) → readU16 s1 = .ok (n, s2) →
      v ≠ t → unpack_type_with t ver s = none) ∧
    (∀ s1 n s2, readU16 s = .ok (t, s1) → readU16 s1 = .ok (n, s2) →
      unpack_type_with t ver s = some (unpack_rest t n ver s2)) := by
  refine ⟨?_, ?_, ?_, ?_⟩
  · intro e h
    simp [unpack_type_with, h]
  · intro v s1 e h h'
    simp [unpack_type_with, h, h']
  · intro v s1 n s2 h h' hne
    simp [unpack_type_with, h, h', hne]
  · intro s1 n s2 h h'
    simp [unpack_type_with, h, h']

/-- Witness for C5: an empty source gives the uniform no-match outcome; a
matching `FrameOfData` envelope with an exhausted body yields `some` of
the body's propagated truncation failure. -/
theorem filter_dispatch_witness :
    unpack_type_with msgFrameOfData (mkVer 2 5 0) [] = none ∧
    unpack_type_with msgFrameOfData (mkVer 2 5 0) [7, 0, 0, 0] =
      some (unpack_rest msgFrameOfData 0 (mkVer 2 5 0) []) ∧
    unpack_rest msgFrameOfData 0 (mkVer 2 5 0) [] = .error .NotEnoughBytes := by
  refine ⟨?_, ?_, by decide⟩
  · exact (filter_dispatch msgFrameOfData (mkVer 2 5 0) []).1
      .NotEnoughBytes (by decide)
  · exact (filter_dispatch msgFrameOfData (mkVer 2 5 0) [7, 0, 0, 0]).2.2.2
      [0, 0] 0 [] (by decide) (by decide)

/-- Claim C10: whenever the filtering variant returns `some r`, `r` is exactly
what the plain dispatcher `unpack_with` returns for the same version on
the same byte sequence from its start. -/
theorem filter_refines_plain {t : Nat} {ver : Ver} {s : ByteSrc}
    {r : PResult NatNetResponse} (h : unpack_type_with t ver s = some r) :
    unpack_with ver s = r := by
  unfold unpack_type_with at h
  split at h
  · exact absurd h (by simp)
  · next v s1 h1 =>
    split at h
    · exact absurd h (by simp)
    · next n s2 h2 =>
      split at h
      · next hm =>
        simp only [Option.some.injEq] at h
        simp [unpack_with, pbind, h1, h2, ← h]
      · exact absurd h (by simp)

/-- Witness for C10: a concrete matched `UnrecognizedRequest` message
decodes identically through both entry points. -/
theorem filter_refines_plain_witness :
    unpack_with (mkVer 2 5 0) [100, 0, 0, 0] =
      .ok (NatNetResponse.UnrecognizedRequest, []) := by
  exact filter_refines_plain (t := 100) (by decide)

/-- Claim C6: an unrecognized leading model-definition discriminant (here 3)
does not return an error result — it reaches `unreachable!()` in
`DataSet::unpack` and panics. The asserted-unreachable arm is reachable
from four bytes of input. -/
theorem dataset_unknown_discriminant_panics :
    DataSet.unpack (mkVer 2 5 0) [3, 0, 0, 0] = .error .Panicked ∧
    DataSet.unpack (mkVer 2 5 0) [255, 255, 255, 255] = .error .Panicked := by
  exact ⟨by decide, by decide⟩

/-- Claim C7: no sequence decoder validates or caps the declared count before
the pre-sized allocation — `unpack_vec` (and every sibling count loop)
passes `num as usize` straight to `Vec::with_capacity`. The four count
bytes `FF FF FF FF` (count -1) make it request 2^64 - 1 elements, above
`isize::MAX` (so `Vec::with_capacity` panics), with no remaining input at
all. -/
theorem unchecked_count_allocation :
    unpack_vec_capacity [255, 255, 255, 255] = .ok (2 ^ 64 - 1) ∧
    readI32 [255, 255, 255, 255] = .ok (-1, []) ∧
    (2 ^ 63 - 1 : Nat) < 2 ^ 64 - 1 := by
  refine ⟨by decide, by decide, by decide⟩

/-- Reading until nul on a nul-free prefix followed by a nul returns the
prefix plus delimiter and leaves exactly the tail. -/
theorem readUntilNul_append (name tail : ByteSrc) (hnul : (0 : Nat) ∉ name) :
    readUntilNul (name ++ 0 :: tail) = (name ++ [0], tail) := by
  induction name with
  | nil => simp [readUntilNul]
  | cons b bs ih =>
    have hb : b ≠ 0 := fun hb => hnul (by simp [hb])
    have hbs : (0 : Nat) ∉ bs := fun hm => hnul (List.mem_cons_of_mem b hm)
    simp [readUntilNul, hb, ih hbs]

/-- `read_cstring` on a valid nul-terminated region: returns the nul-free,
UTF-8-valid name and consumes exactly through the nul. -/
theorem read_cstring_ok (name tail : ByteSrc) (hnul : (0 : Nat) ∉ name)
    (hutf : validUtf8 name = true) :
    read_cstring (name ++ 0 :: tail) = .ok (name, tail) := by
  unfold read_cstring
  rw [readUntilNul_append name tail hnul]
  simp only [List.dropLast_concat]
  rw [if_neg hnul, if_pos hutf]

/-- A single byte read off the front of a nonempty source. -/
theorem readU8_cons (b : Nat) (l : ByteSrc) : readU8 (b :: l) = .ok (b, l) := by
  simp [readU8, readBytes, pmap, leNat]

/-- `unpack_version` consumes exactly four bytes: major, minor, patch and
the numeric build identifier. -/
theorem unpack_version_cons (a1 a2 a3 a4 : Nat) (l : ByteSrc) :
    unpack_version (a1 :: a2 :: a3 :: a4 :: l) = .ok (⟨a1, a2, a3, [a4]⟩, l) := by
  simp [unpack_version, readU8_cons, pbind]

set_option maxRecDepth 10000 in
/-- Counterexample for C8: a name of 256 bytes (first nul at offset 256)
makes the skip amount `256 - name.len() - 1` underflow, so `Sender::unpack`
panics instead of landing at the version fields — the claim's
"for every name length" fails. -/
theorem sender_overlong_name_panics :
    Sender.unpack (mkVer 2 5 0)
      (List.replicate 256 97 ++ [0] ++ [1, 2, 3, 4, 5, 6, 7, 8]) =
      .error .Panicked := by
  decide

/-- Claim C8, amended: for every name of at most 255 bytes read with its nul
terminator, `Sender::unpack` skips exactly the `255 - len` unused bytes of
the fixed 256-byte name slot, so the next bytes consumed are the two
four-byte version fields (application version then NatNet version, one
byte per component plus a numeric build byte); names of 256 bytes or more
overflow the slot and panic. -/
theorem sender_slot_skip (ver : Ver) (name pad rest : ByteSrc)
    (a1 a2 a3 a4 b1 b2 b3 b4 : Nat)
    (hnul : (0 : Nat) ∉ name) (hutf : validUtf8 name = true)
    (hlen : name.length ≤ 255) (hpad : pad.length = 255 - name.length) :
    Sender.unpack ver
      (name ++ 0 :: (pad ++ (a1 :: a2 :: a3 :: a4 :: b1 :: b2 :: b3 :: b4 :: rest))) =
      .ok (⟨name, ⟨a1, a2, a3, [a4]⟩, ⟨b1, b2, b3, [b4]⟩⟩, rest) := by
  unfold Sender.unpack
  rw [read_cstring_ok name _ hnul hutf]
  simp only [pbind]
  rw [if_neg (by omega)]
  have hamt : 256 - name.length - 1 = pad.length := by omega
  have hcons : consume (256 - name.length - 1)
      (pad ++ (a1 :: a2 :: a3 :: a4 :: b1 :: b2 :: b3 :: b4 :: rest)) =
      .ok (a1 :: a2 :: a3 :: a4 :: b1 :: b2 :: b3 :: b4 :: rest) := by
    rw [hamt]
    unfold consume
    rw [if_pos (by simp)]
    simp
  rw [hcons]
  simp [pbind, unpack_version_cons]

/-- Witness for C8 (amended): a one-byte name "X", 254 pad bytes, then the
two version fields. -/
theorem sender_slot_skip_witness :
    Sender.unpack (mkVer 2 5 0)
      ([88] ++ 0 :: (List.replicate 254 9 ++
        (1 :: 2 :: 3 :: 4 :: 5 :: 6 :: 7 :: 8 :: [42]))) =
      .ok (⟨[88], ⟨1, 2, 3, [4]⟩, ⟨5, 6, 7, [8]⟩⟩, [42]) := by
  exact sender_slot_skip (mkVer 2 5 0) [88] (List.replicate 254 9) [42]
    1 2 3 4 5 6 7 8 (by decide) (by decide) (by decide)
    (by rw [List.length_replicate]; rfl)

/-- Counterexample for C9: encoding a Ping whose nul-terminated name
overflows the 16-bit length field does not yield 65535 total bytes — a
100,000-byte name encodes to 65539 bytes (4-byte envelope plus the 65535
truncated body); only the body is capped at 65535. The final byte is
still a forced nul. -/
theorem ping_encode_total_len_counterexample :
    (natnetRequestEncode (.Ping (List.replicate 100000 88))).length = 65539 ∧
    (65539 : Nat) ≠ 65535 ∧
    (natnetRequestEncode (.Ping (List.replicate 100000 88))).getLast? = some 0 := by
  have hcond : ((List.replicate 100000 88 : List Nat) ++ [0]).length > 65535 := by
    rw [List.length_append, List.length_replicate]
    omega
  have henc : natnetRequestEncode (.Ping (List.replicate 100000 88)) =
      u16le msgPing ++ u16le 65535 ++
        ((List.replicate 100000 88 : List Nat) ++ [0]).take 65534 ++ [0] := by
    simp only [natnetRequestEncode]
    rw [if_pos hcond]
  refine ⟨?_, by decide, ?_⟩
  · rw [henc]
    rw [List.length_append, List.length_append, List.length_append,
      List.length_take, List.length_append, List.length_replicate]
    simp [u16le]
  · rw [henc]
    rw [List.getLast?_append_of_ne_nil] <;> simp

/-- Claim C9, amended: a Ping whose nul-terminated name overflows the 16-bit
length field encodes to a declared length of 65535 and a body of exactly
65535 bytes — 65539 bytes in total with the 4-byte envelope — ending in a
forced nul; a Ping whose name fits (such as "X") encodes as type code 0,
declared length `len(name) + 1`, then the name bytes and the nul. -/
theorem ping_encode_spec (name : List Nat) (hlong : 65535 < name.length + 1) :
    (natnetRequestEncode (.Ping name)).length = 65539 ∧
    (natnetRequestEncode (.Ping name)).take 4 = [0, 0, 255, 255] ∧
    (natnetRequestEncode (.Ping name)).getLast? = some 0 ∧
    natnetRequestEncode (.Ping [88]) = [0, 0, 2, 0, 88, 0] := by
  have hcond : (name ++ [0]).length > 65535 := by
    rw [List.length_append]
    simp only [List.length_singleton]
    omega
  have henc : natnetRequestEncode (.Ping name) =
      u16le msgPing ++ u16le 65535 ++ (name ++ [0]).take 65534 ++ [0] := by
    simp only [natnetRequestEncode]
    rw [if_pos hcond]
  refine ⟨?_, ?_, ?_, by decide⟩
  · rw [henc]
    rw [List.length_append, List.length_append, List.length_append,
      List.length_take, List.length_append]
    simp only [u16le, List.length_cons, List.length_nil, List.length_singleton]
    omega
  · rw [henc]
    rfl
  · rw [henc]
    rw [List.getLast?_append_of_ne_nil] <;> simp

/-- Witness for C9 (amended): the 100,000-byte name. -/
theorem ping_encode_spec_witness :
    (natnetRequestEncode (.Ping (List.replicate 100000 88))).length = 65539 ∧
    natnetRequestEncode (.Ping [88]) = [0, 0, 2, 0, 88, 0] := by
  have h := ping_encode_spec (List.replicate 100000 88)
    (by rw [List.length_replicate]; norm_num)
  exact ⟨h.1, h.2.2.2⟩
